import Mathlib

/-!
Verification of the insider-backend room server (src/main.go).

The Go code is shallowly embedded: Go maps become association lists
(`List (String × β)`) with first-match lookup and in-place overwrite,
Go `int` becomes `Int`, and every handler becomes a pure state
transformer on `Room`.  The per-second timer goroutine body becomes the
step function `countdownTick`, applied once per tick.
-/

/-- First-match lookup in an association list, modelling a Go map read. -/
def lookupS {β : Type} : List (String × β) → String → Option β
  | [], _ => none
  | kv :: rest, k => if kv.1 = k then some kv.2 else lookupS rest k

/-- Overwrite the entry at a key in place, or append a fresh entry,
modelling a Go map write. -/
def insertS {β : Type} : List (String × β) → String → β → List (String × β)
  | [], k, v => [(k, v)]
  | kv :: rest, k, v => if kv.1 = k then (k, v) :: rest else kv :: insertS rest k v

/-- Remove every entry at a key, modelling Go `delete`. -/
def eraseS {β : Type} (m : List (String × β)) (k : String) : List (String × β) :=
  m.filter (fun kv => kv.1 != k)

/-- The association list has pairwise distinct keys, as a Go map does. -/
def NodupKeys {β : Type} (m : List (String × β)) : Prop :=
  (m.map Prod.fst).Nodup

instance {β : Type} (m : List (String × β)) : Decidable (NodupKeys m) :=
  inferInstanceAs (Decidable (m.map Prod.fst).Nodup)

theorem lookupS_insertS_self {β : Type} (m : List (String × β)) (k : String) (v : β) :
    lookupS (insertS m k v) k = some v := by
  induction m with
  | nil => simp [insertS, lookupS]
  | cons kv rest ih =>
    by_cases h : kv.1 = k
    · simp [insertS, h, lookupS]
    · simp [insertS, h, lookupS, ih]

theorem lookupS_insertS_ne {β : Type} (m : List (String × β)) (k k' : String) (v : β)
    (h : k' ≠ k) : lookupS (insertS m k v) k' = lookupS m k' := by
  induction m with
  | nil => simp [insertS, lookupS, Ne.symm h]
  | cons kv rest ih =>
    by_cases hk : kv.1 = k
    · subst hk
      simp [insertS, lookupS, Ne.symm h]
    · simp [insertS, hk, lookupS, ih]

theorem length_insertS_of_mem {β : Type} (m : List (String × β)) (k : String) (v : β)
    (h : (lookupS m k).isSome) : (insertS m k v).length = m.length := by
  induction m with
  | nil => simp [lookupS] at h
  | cons kv rest ih =>
    by_cases hk : kv.1 = k
    · simp [insertS, hk]
    · simp [lookupS, hk] at h
      simp [insertS, hk, ih h]

theorem mem_keys_insertS {β : Type} (m : List (String × β)) (k k' : String) (v : β) :
    k' ∈ (insertS m k v).map Prod.fst ↔ k' ∈ m.map Prod.fst ∨ k' = k := by
  induction m with
  | nil => simp [insertS]
  | cons kv rest ih =>
    by_cases hk : kv.1 = k
    · subst hk
      simp [insertS]
      tauto
    · simp only [insertS, if_neg hk, List.map_cons, List.mem_cons, ih]
      tauto

theorem NodupKeys_insertS {β : Type} (m : List (String × β)) (k : String) (v : β)
    (h : NodupKeys m) : NodupKeys (insertS m k v) := by
  induction m with
  | nil => simp [insertS, NodupKeys]
  | cons kv rest ih =>
    rw [NodupKeys, List.map_cons, List.nodup_cons] at h
    by_cases hk : kv.1 = k
    · subst hk
      rw [NodupKeys]
      simpa [insertS] using h
    · rw [NodupKeys]
      simp only [insertS, if_neg hk, List.map_cons, List.nodup_cons]
      refine ⟨?_, ih h.2⟩
      rw [mem_keys_insertS]
      rintro (hh | hh)
      · exact h.1 hh
      · exact hk hh

theorem NodupKeys_eraseS {β : Type} (m : List (String × β)) (k : String)
    (h : NodupKeys m) : NodupKeys (eraseS m k) := by
  rw [NodupKeys] at h ⊢
  have hs : ((eraseS m k).map Prod.fst).Sublist (m.map Prod.fst) :=
    List.Sublist.map _ (List.filter_sublist m)
  exact List.Nodup.sublist hs h

/-- Player record from `src/main.go` (transport handle omitted: it is
owned by the session, not by the room state). -/
structure Player where
  id : String
  name : String
  score : Int
  role : String
deriving DecidableEq

/-- Historical (voter, target) record produced by a completed tally. -/
structure VotePair where
  voterID : String
  targetID : String
deriving DecidableEq

/-- Room state from `src/main.go`.  `timerCancelSet` models whether
`timerCancel` is a non-nil channel. -/
structure Room where
  code : String
  state : String
  hostID : String
  judgeID : String
  insiderID : String
  timer : Int
  secretWord : String
  roundEndByTimeout : Bool
  chatEnabled : Bool
  blockedVoters : List (String × Bool)
  voted : List (String × Bool)
  lastVotes : List VotePair
  players : List (String × Player)
  votes : List (String × String)
  timerRunning : Bool
  timerCancelSet : Bool
deriving DecidableEq

def RoundDurationSeconds : Int := 300

def VoteDurationSeconds : Int := 90

/-- The room literal built by `getOrCreateRoom` when it creates a room;
unset Go fields take their zero values. -/
def newRoom (code : String) : Room where
  code := code
  state := "lobby"
  hostID := ""
  judgeID := ""
  insiderID := ""
  timer := 0
  secretWord := ""
  roundEndByTimeout := false
  chatEnabled := true
  blockedVoters := []
  voted := []
  lastVotes := []
  players := []
  votes := []
  timerRunning := false
  timerCancelSet := false

/-- Registry lookup/creation (`getOrCreateRoom` in src/main.go): the
registry is the global `rooms` map, returned alongside the result. -/
def getOrCreateRoom (reg : List (String × Room)) (code : String) (create : Bool) :
    List (String × Room) × Option Room × Bool :=
  match lookupS reg code with
  | some room => if create then (reg, none, false) else (reg, some room, true)
  | none =>
    if !create then (reg, none, false)
    else (insertS reg code (newRoom code), some (newRoom code), true)

/-- C8: getOrCreate with create = true fails on an existing code, registers a
fresh lobby room (chat enabled, empty players and vote collections) when the
code is new; with create = false it returns the existing room or not-found. -/
theorem C8_get_or_create (reg : List (String × Room)) (code : String) :
    (∀ room0, lookupS reg code = some room0 →
      getOrCreateRoom reg code true = (reg, none, false)
      ∧ getOrCreateRoom reg code false = (reg, some room0, true))
    ∧ (lookupS reg code = none →
      getOrCreateRoom reg code false = (reg, none, false)
      ∧ getOrCreateRoom reg code true
          = (insertS reg code (newRoom code), some (newRoom code), true)
      ∧ (newRoom code).state = "lobby"
      ∧ (newRoom code).chatEnabled = true
      ∧ (newRoom code).players = []
      ∧ (newRoom code).votes = []
      ∧ (newRoom code).voted = []
      ∧ (newRoom code).blockedVoters = []
      ∧ (newRoom code).lastVotes = []) := by
  constructor
  · intro room0 h
    simp [getOrCreateRoom, h]
  · intro h
    simp [getOrCreateRoom, h, newRoom]

theorem C8_witness :
    getOrCreateRoom [] "r1" true = ([("r1", newRoom "r1")], some (newRoom "r1"), true)
    ∧ getOrCreateRoom [("r1", newRoom "r1")] "r1" true
        = ([("r1", newRoom "r1")], none, false)
    ∧ getOrCreateRoom [("r1", newRoom "r1")] "r1" false
        = ([("r1", newRoom "r1")], some (newRoom "r1"), true)
    ∧ getOrCreateRoom [] "r1" false = ([], none, false) := by
  refine ⟨?_, ?_, ?_, ?_⟩
  · have h := ((C8_get_or_create [] "r1").2 rfl).2.1
    simpa [insertS] using h
  · exact ((C8_get_or_create [("r1", newRoom "r1")] "r1").1 (newRoom "r1") rfl).1
  · exact ((C8_get_or_create [("r1", newRoom "r1")] "r1").1 (newRoom "r1") rfl).2
  · exact ((C8_get_or_create [] "r1").2 rfl).1

/-- Reset every player's role to `normal` (first loop of `assignRoles`). -/
def clearRoles (ps : List (String × Player)) : List (String × Player) :=
  ps.map (fun kv => (kv.1, { kv.2 with role := "normal" }))

/-- Set the role of the player stored at a key, modelling the Go
mutation of the `*Player` reached through the map. -/
def setRoleByKey (ps : List (String × Player)) (k : String) (ro : String) :
    List (String × Player) :=
  ps.map (fun kv => if kv.1 = k then (kv.1, { kv.2 with role := ro }) else kv)

/-- Role assignment (`assignRoles` in src/main.go).  The `rand.Intn`
draw is modelled by the `pick` parameter, reduced modulo the number of
candidates. -/
def assignRoles (r : Room) (pick : Nat) : Room :=
  let r1 : Room := { r with insiderID := "", players := clearRoles r.players }
  let ps2 : List (String × Player) :=
    if r1.judgeID ≠ "" ∧ (lookupS r1.players r1.judgeID).isSome then
      setRoleByKey r1.players r1.judgeID "judge"
    else r1.players
  let r2 : Room := { r1 with players := ps2 }
  let candidates := r2.players.filter (fun kv => kv.2.id != r2.judgeID)
  if h : candidates.length = 0 then r2
  else
    let ins := candidates.get ⟨pick % candidates.length, Nat.mod_lt _ (Nat.pos_of_ne_zero h)⟩
    { r2 with
      insiderID := ins.2.id
      players := setRoleByKey r2.players ins.1 "insider"
      state := "assign_roles" }

/-- State mutation performed by `startCountdownTimer` before spawning
the ticking goroutine: supersede any previous timer and reset the
per-round vote state. -/
def startCountdownTimer (r : Room) (duration : Int) : Room :=
  { r with
    timer := duration
    state := "countdown"
    timerRunning := true
    timerCancelSet := true
    roundEndByTimeout := false
    blockedVoters := []
    voted := []
    lastVotes := [] }

/-- State mutation performed by `startVoteTimer` before spawning the
ticking goroutine. -/
def startVoteTimer (r : Room) (duration : Int) : Room :=
  { r with
    timer := duration
    state := "voting"
    timerRunning := true
    timerCancelSet := true }

/-- One tick of the countdown-phase timer goroutine in
`startCountdownTimer`: decrement the timer (floored at zero) and, on
reaching zero, end the round by timeout. -/
def countdownTick (r : Room) : Room :=
  if r.timerRunning = false then r
  else
    let t := if 0 < r.timer then r.timer - 1 else r.timer
    if t ≤ 0 then
      { r with
        timer := 0
        timerRunning := false
        state := "scoreboard"
        roundEndByTimeout := true
        votes := [] }
    else { r with timer := t }

/-- Mark the running timer stopped and close/clear its cancel channel, the
shared cancellation snippet of `handleGuessCorrect` and the vote_insider
branch. -/
def cancelTimer (r : Room) : Room :=
  { r with timerRunning := false, timerCancelSet := false }

/-- `handleGuessCorrect` in src/main.go: cancel the running timer,
reset the vote state, enter `voting` and start the vote timer. -/
def handleGuessCorrect (r : Room) : Room :=
  let r1 : Room := if r.timerRunning then cancelTimer r else r
  let r2 : Room :=
    { r1 with
      roundEndByTimeout := false
      state := "voting"
      votes := []
      voted := []
      blockedVoters := []
      lastVotes := [] }
  startVoteTimer r2 VoteDurationSeconds

/-- The `guess_correct` branch of `wsHandler`: only the judge check
guards the transition. -/
def guessCorrectCmd (r : Room) (senderID : String) : Except String Room :=
  if r.judgeID = senderID then Except.ok (handleGuessCorrect r)
  else Except.error "เฉพาะกรรมการเท่านั้นที่กดทายถูกได้"

/-- Per-target vote counting (`count[suspectID]++` over the live votes). -/
def bumpCount (m : List (String × Int)) (k : String) : List (String × Int) :=
  match lookupS m k with
  | some c => insertS m k (c + 1)
  | none => insertS m k 1

/-- The count map built by `handleTallyVotes`. -/
def voteCounts (votes : List (String × String)) : List (String × Int) :=
  votes.foldl (fun acc kv => bumpCount acc kv.2) []

/-- The maximum vote count (`maxVote`), starting from -1 as in the source. -/
def maxCount (m : List (String × Int)) : Int :=
  m.foldl (fun mv kv => if mv < kv.2 then kv.2 else mv) (-1)

/-- The targets achieving the maximum vote count (`top`). -/
def topTargets (votes : List (String × String)) : List String :=
  ((voteCounts votes).filter (fun kv => kv.2 == maxCount (voteCounts votes))).map Prod.fst

/-- The single accused target when no tie occurs (`top[0]`). -/
def accusedOf (votes : List (String × String)) : String :=
  (topTargets votes).headD ""

/-- Scoring when the accused is the insider: everyone but the insider
and the judge gains one point. -/
def scoreCorrect (ps : List (String × Player)) (insiderID judgeID : String) :
    List (String × Player) :=
  ps.map (fun kv => (kv.1,
    if kv.2.id = insiderID ∨ kv.2.id = judgeID then kv.2
    else { kv.2 with score := kv.2.score + 1 }))

/-- Scoring when the accused is not the insider: the insider, if
present, gains two points. -/
def scoreWrong (ps : List (String × Player)) (insiderID : String) :
    List (String × Player) :=
  match lookupS ps insiderID with
  | some ins => insertS ps insiderID { ins with score := ins.score + 2 }
  | none => ps

/-- Body of `handleTallyVotes` after the empty-room guard. -/
def tallyCore (r : Room) : Room :=
  let r1 : Room := { r with lastVotes := r.votes.map (fun kv => ⟨kv.1, kv.2⟩) }
  if (voteCounts r1.votes).length = 0 then
    { r1 with state := "scoreboard", votes := [], voted := [], blockedVoters := [] }
  else if 1 < (topTargets r1.votes).length then
    { r1 with
      state := "voting"
      votes := []
      voted := []
      blockedVoters := (topTargets r1.votes).map (fun t => (t, true)) }
  else
    let players1 :=
      if accusedOf r1.votes = r1.insiderID then scoreCorrect r1.players r1.insiderID r1.judgeID
      else scoreWrong r1.players r1.insiderID
    { r1 with
      players := players1
      state := "scoreboard"
      votes := []
      voted := []
      blockedVoters := [] }

/-- `handleTallyVotes` in src/main.go. -/
def handleTallyVotes (r : Room) : Room :=
  if r.players.length = 0 then r else tallyCore r

/-- `handleNextRound` in src/main.go. -/
def handleNextRound (r : Room) : Room :=
  { r with
    players := r.players.map (fun kv => (kv.1, { kv.2 with role := "" }))
    insiderID := ""
    timer := 0
    timerRunning := false
    timerCancelSet := false
    state := "lobby"
    votes := []
    roundEndByTimeout := false
    blockedVoters := []
    voted := []
    lastVotes := [] }

/-- The eligible-voter count recomputed on each vote: members that are
neither the judge nor blocked. -/
def eligibleCount (r : Room) : Nat :=
  (r.players.filter (fun kv =>
    if kv.1 = r.judgeID then false
    else if lookupS r.blockedVoters kv.1 = some true then false
    else true)).length

/-- The room after the vote_insider branch stores the sender's vote in the
live vote mapping and marks the sender as having voted. -/
def voteRecorded (r : Room) (senderID suspectID : String) : Room :=
  { r with
    votes := insertS r.votes senderID suspectID
    voted := insertS r.voted senderID true }

/-- The `vote_insider` branch of `wsHandler`: validation guards, vote
recording, and the early-completion tally trigger. -/
def handleVoteInsider (r : Room) (senderID suspectID : String) : Except String Room :=
  if suspectID = "" then Except.error "suspectId is required"
  else if r.state ≠ "voting" then Except.error "ยังไม่อยู่ในช่วงโหวต"
  else if senderID = r.judgeID then Except.error "กรรมการไม่สามารถโหวตได้"
  else if lookupS r.blockedVoters senderID = some true then
    Except.error "คุณอยู่ในกลุ่มที่ถูกสงสัย จึงไม่มีสิทธิ์โหวตรอบนี้"
  else if suspectID = senderID then Except.error "ไม่สามารถโหวตตัวเองได้"
  else if (lookupS r.players suspectID).isNone then Except.error "invalid suspectId"
  else
    let r1 : Room := voteRecorded r senderID suspectID
    if r1.votes.length ≥ eligibleCount r1 ∧ 0 < eligibleCount r1 then
      let r2 : Room := if r1.timerRunning then cancelTimer r1 else r1
      Except.ok (handleTallyVotes r2)
    else Except.ok r1

/-- The `start_round` branch of `wsHandler`: the secret word is stored
before validation, then the guards run, then roles are assigned and the
countdown starts.  Returns the resulting room and the error text sent
to the sender, if any. -/
def startRoundCmd (r : Room) (secretWord : String) (duration0 : Int) (pick : Nat) :
    Room × Option String :=
  let duration := if duration0 ≤ 0 then RoundDurationSeconds else duration0
  let hasJudge := r.judgeID != ""
  let nonJudgeCount : Int :=
    if hasJudge then (r.players.length : Int) - 1 else (r.players.length : Int)
  let r1 : Room := { r with secretWord := secretWord }
  if secretWord = "" then
    (r1, some "กรรมการต้องกำหนดคำปริศนาก่อนเริ่มเกม")
  else if hasJudge = false ∨ nonJudgeCount < 3 then
    (r1, some "ต้องมีผู้เล่น (ไม่นับกรรมการ) อย่างน้อย 3 คน")
  else
    (startCountdownTimer (assignRoles r1 pick) duration, none)

theorem lookupS_map_value {β γ : Type} (g : β → γ) (ps : List (String × β)) (k : String) :
    lookupS (ps.map (fun kv => (kv.1, g kv.2))) k = (lookupS ps k).map g := by
  induction ps with
  | nil => simp [lookupS]
  | cons kv rest ih =>
    by_cases h : kv.1 = k
    · simp [lookupS, h]
    · simp [lookupS, h, ih]

theorem keys_map_value {β γ : Type} (g : β → γ) (ps : List (String × β)) :
    (ps.map (fun kv => (kv.1, g kv.2))).map Prod.fst = ps.map Prod.fst := by
  induction ps with
  | nil => simp
  | cons kv rest ih => simp [ih]

/-- C9: next_round resets the room to `lobby`, clears every player's role,
the insider id, the timer (cancelling it), and all vote collections, while
keeping every player's score, the player set, the host id and the judge id. -/
theorem C9_next_round (r : Room) :
    (handleNextRound r).state = "lobby"
    ∧ (handleNextRound r).insiderID = ""
    ∧ (handleNextRound r).timer = 0
    ∧ (handleNextRound r).timerRunning = false
    ∧ (handleNextRound r).timerCancelSet = false
    ∧ (handleNextRound r).votes = []
    ∧ (handleNextRound r).voted = []
    ∧ (handleNextRound r).blockedVoters = []
    ∧ (handleNextRound r).lastVotes = []
    ∧ (handleNextRound r).hostID = r.hostID
    ∧ (handleNextRound r).judgeID = r.judgeID
    ∧ (handleNextRound r).players.map Prod.fst = r.players.map Prod.fst
    ∧ (∀ k, lookupS (handleNextRound r).players k
        = (lookupS r.players k).map (fun p => { p with role := "" })) := by
  refine ⟨rfl, rfl, rfl, rfl, rfl, rfl, rfl, rfl, rfl, rfl, rfl, ?_, ?_⟩
  · exact keys_map_value (fun p => { p with role := "" }) r.players
  · intro k
    exact lookupS_map_value (fun p => { p with role := "" }) r.players k

/-- Observe the state of the room returned by a command, if it succeeded. -/
def okRoomState : Except String Room → Option String
  | Except.ok r => some r.state
  | Except.error _ => none

/-- A lobby room whose judge is player J: used to exercise guess_correct
outside the countdown state. -/
def c5Room : Room :=
  { newRoom "r" with
    judgeID := "J"
    players := [("J", ⟨"J", "judy", 0, ""⟩)] }

/-- C5 counterexample: the code never checks that the room is in `countdown`.
In a `lobby` room the judge's guess_correct is accepted and moves the room to
`voting`, contradicting the claim that it is rejected in every other state
with the room unchanged. -/
theorem C5_cex :
    c5Room.state = "lobby"
    ∧ okRoomState (guessCorrectCmd c5Room "J") = some "voting" := by
  constructor
  · rfl
  · rfl

/-- C5 (amended): guess_correct takes effect — cancelling any running timer,
resetting the vote state, entering `voting` and starting the 90-second vote
timer — if and only if the sender is the judge, in any room state; a
non-judge sender is rejected with an error. -/
theorem C5_guess_correct (r : Room) (sender : String) :
    (r.judgeID = sender →
      guessCorrectCmd r sender = Except.ok (handleGuessCorrect r)
      ∧ (handleGuessCorrect r).state = "voting"
      ∧ (handleGuessCorrect r).votes = []
      ∧ (handleGuessCorrect r).voted = []
      ∧ (handleGuessCorrect r).blockedVoters = []
      ∧ (handleGuessCorrect r).lastVotes = []
      ∧ (handleGuessCorrect r).roundEndByTimeout = false
      ∧ (handleGuessCorrect r).timer = VoteDurationSeconds
      ∧ (handleGuessCorrect r).timerRunning = true
      ∧ (handleGuessCorrect r).players = r.players)
    ∧ (r.judgeID ≠ sender →
      guessCorrectCmd r sender = Except.error "เฉพาะกรรมการเท่านั้นที่กดทายถูกได้") := by
  constructor
  · intro h
    by_cases hr : r.timerRunning <;>
      simp [guessCorrectCmd, h, handleGuessCorrect, startVoteTimer, cancelTimer, hr]
  · intro h
    simp [guessCorrectCmd, h]

theorem C5_witness :
    guessCorrectCmd c5Room "J" = Except.ok (handleGuessCorrect c5Room)
    ∧ (handleGuessCorrect c5Room).state = "voting"
    ∧ guessCorrectCmd c5Room "X" = Except.error "เฉพาะกรรมการเท่านั้นที่กดทายถูกได้" := by
  refine ⟨((C5_guess_correct c5Room "J").1 rfl).1,
    ((C5_guess_correct c5Room "J").1 rfl).2.1,
    (C5_guess_correct c5Room "X").2 ?_⟩
  intro h
  exact absurd h (by decide)

theorem countdownTick_run_pos (r : Room) (h : r.timerRunning = true) (hm : 1 < r.timer) :
    countdownTick r = { r with timer := r.timer - 1 } := by
  simp only [countdownTick, h]
  rw [if_neg (by simp)]
  rw [if_pos (show (0:Int) < r.timer by omega)]
  rw [if_neg (show ¬ (r.timer - 1 ≤ 0) by omega)]

theorem countdownTick_run_last (r : Room) (h : r.timerRunning = true) (hm : r.timer = 1) :
    countdownTick r =
      { r with
        timer := 0
        timerRunning := false
        state := "scoreboard"
        roundEndByTimeout := true
        votes := [] } := by
  simp only [countdownTick, h]
  rw [if_neg (by simp)]
  rw [if_pos (show (0:Int) < r.timer by omega)]
  rw [if_pos (show r.timer - 1 ≤ 0 by omega)]

theorem countdown_iterate (r : Room) (D k : Nat) (hk : k < D) :
    countdownTick^[k] (startCountdownTimer r (D : Int))
      = { startCountdownTimer r (D : Int) with timer := (D : Int) - (k : Int) } := by
  induction k with
  | zero =>
    simp [startCountdownTimer]
  | succ n ih =>
    have hn : n < D := Nat.lt_of_succ_lt hk
    have hgt : (1 : Int) < (D : Int) - (n : Int) := by omega
    rw [Function.iterate_succ_apply', ih hn, countdownTick_run_pos _ rfl hgt]
    simp [startCountdownTimer]
    omega

/-- C7: a countdown started with duration D > 0 and never superseded reaches
exactly 0 after D ticks; the terminal tick moves the room to `scoreboard`
with round-ended-by-timeout set and an empty vote mapping, and no player
data changes; every earlier tick stays in `countdown`, decreases the timer
by exactly one, and the timer is never negative. -/
theorem C7_countdown (r : Room) (D : Nat) (hD : 0 < D) :
    (∀ k, k < D →
      (countdownTick^[k] (startCountdownTimer r (D : Int))).state = "countdown"
      ∧ (countdownTick^[k] (startCountdownTimer r (D : Int))).timer
          = (D : Int) - (k : Int)
      ∧ (countdownTick^[k + 1] (startCountdownTimer r (D : Int))).timer
          = (countdownTick^[k] (startCountdownTimer r (D : Int))).timer - 1
      ∧ 0 ≤ (countdownTick^[k + 1] (startCountdownTimer r (D : Int))).timer)
    ∧ (countdownTick^[D] (startCountdownTimer r (D : Int))).timer = 0
    ∧ (countdownTick^[D] (startCountdownTimer r (D : Int))).state = "scoreboard"
    ∧ (countdownTick^[D] (startCountdownTimer r (D : Int))).roundEndByTimeout = true
    ∧ (countdownTick^[D] (startCountdownTimer r (D : Int))).votes = []
    ∧ (countdownTick^[D] (startCountdownTimer r (D : Int))).players = r.players := by
  cases D with
  | zero => exact absurd hD (by omega)
  | succ m =>
    have hfin : countdownTick^[m + 1] (startCountdownTimer r ((m + 1 : Nat) : Int))
        = { startCountdownTimer r ((m + 1 : Nat) : Int) with
            timer := 0
            timerRunning := false
            state := "scoreboard"
            roundEndByTimeout := true
            votes := [] } := by
      have h1 : ((m + 1 : Nat) : Int) - (m : Int) = 1 := by omega
      rw [Function.iterate_succ_apply', countdown_iterate r (m + 1) m (by omega),
        countdownTick_run_last _ rfl h1]
    constructor
    · intro k hk
      have hstep : countdownTick^[k] (startCountdownTimer r ((m + 1 : Nat) : Int))
          = { startCountdownTimer r ((m + 1 : Nat) : Int) with
              timer := ((m + 1 : Nat) : Int) - (k : Int) } :=
        countdown_iterate r (m + 1) k hk
      refine ⟨?_, ?_, ?_, ?_⟩
      · rw [hstep]; rfl
      · rw [hstep]
      · by_cases hk1 : k + 1 < m + 1
        · rw [countdown_iterate r (m + 1) (k + 1) hk1, hstep]
          push_cast
          omega
        · have hke : k = m := by omega
          subst hke
          rw [hfin, hstep]
          show (0 : Int) = ((k + 1 : Nat) : Int) - (k : Int) - 1
          omega
      · by_cases hk1 : k + 1 < m + 1
        · rw [countdown_iterate r (m + 1) (k + 1) hk1]
          show (0 : Int) ≤ ((m + 1 : Nat) : Int) - ((k + 1 : Nat) : Int)
          omega
        · have hke : k = m := by omega
          subst hke
          rw [hfin]
    · rw [hfin]
      exact ⟨rfl, rfl, rfl, rfl, rfl⟩

theorem C7_witness :
    (countdownTick^[2] (startCountdownTimer (newRoom "w7") ((3 : Nat) : Int))).timer
      = ((3 : Nat) : Int) - ((2 : Nat) : Int)
    ∧ (countdownTick^[3] (startCountdownTimer (newRoom "w7") ((3 : Nat) : Int))).state
        = "scoreboard"
    ∧ (countdownTick^[3] (startCountdownTimer (newRoom "w7") ((3 : Nat) : Int))).votes
        = [] := by
  have h := C7_countdown (newRoom "w7") 3 (by omega)
  exact ⟨(h.1 2 (by omega)).2.1, h.2.2.1, h.2.2.2.2.1⟩

theorem length_filter_ne_of_mem {β : Type} (ps : List (String × β)) (j : String)
    (hnd : NodupKeys ps) (hm : (lookupS ps j).isSome) :
    ps.length = (ps.filter (fun kv => kv.1 != j)).length + 1 := by
  induction ps with
  | nil => simp [lookupS] at hm
  | cons kv rest ih =>
    rw [NodupKeys, List.map_cons, List.nodup_cons] at hnd
    by_cases h : kv.1 = j
    · subst h
      have hrest : rest.filter (fun kv2 => kv2.1 != kv.1) = rest := by
        rw [List.filter_eq_self]
        intro a ha
        have hks : a.1 ∈ rest.map Prod.fst := List.mem_map_of_mem _ ha
        simp only [bne_iff_ne, ne_eq, decide_eq_true_eq]
        intro hEq
        exact hnd.1 (hEq ▸ hks)
      simp [List.filter_cons, hrest]
    · have hm2 : (lookupS rest j).isSome := by simpa [lookupS, h] using hm
      have hih := ih hnd.2 hm2
      simp [List.filter_cons, bne_iff_ne, h]
      omega

/-- A lobby room with judge J (a member), three non-judge members, and a
previously stored secret word. -/
def c4Room : Room :=
  { newRoom "r4" with
    judgeID := "J"
    hostID := "J"
    secretWord := "w"
    players := [("J", ⟨"J", "judy", 0, ""⟩), ("A", ⟨"A", "ann", 0, ""⟩),
      ("B", ⟨"B", "bob", 0, ""⟩), ("C", ⟨"C", "cy", 0, ""⟩)] }

/-- C4 counterexample: start_round with an empty secret word is rejected, but
the room does not stay unchanged — the stored secret word is overwritten with
the empty string before the validation runs (line 617 of src/main.go). -/
theorem C4_cex :
    c4Room.secretWord = "w"
    ∧ ((startRoundCmd c4Room "" 60 0).2).isSome = true
    ∧ ((startRoundCmd c4Room "" 60 0).1).secretWord = "" :=
  ⟨rfl, rfl, rfl⟩

/-- C4 (amended): in a lobby room with a judge who is a member and at least 3
non-judge members, start_round with a non-empty secret word succeeds and moves
the room to `countdown`; with an empty secret word it fails with an error and
leaves the room unchanged except that the stored secret word is overwritten
with the empty string. -/
theorem C4_start_round (r : Room) (w : String) (d : Int) (pick : Nat)
    (_hstate : r.state = "lobby")
    (hj : r.judgeID ≠ "")
    (hmem : (lookupS r.players r.judgeID).isSome)
    (hnd : NodupKeys r.players)
    (hcnt : 3 ≤ (r.players.filter (fun kv => kv.1 != r.judgeID)).length)
    (hw : w ≠ "") :
    (startRoundCmd r w d pick).2 = none
    ∧ ((startRoundCmd r w d pick).1).state = "countdown"
    ∧ (∀ r0 : Room, startRoundCmd r0 "" d pick
        = ({ r0 with secretWord := "" }, some "กรรมการต้องกำหนดคำปริศนาก่อนเริ่มเกม")) := by
  have hlen : r.players.length
      = (r.players.filter (fun kv => kv.1 != r.judgeID)).length + 1 :=
    length_filter_ne_of_mem r.players r.judgeID hnd hmem
  have hJ : (r.judgeID != "") = true := by simpa [bne_iff_ne] using hj
  have heval : startRoundCmd r w d pick
      = (startCountdownTimer (assignRoles { r with secretWord := w } pick)
          (if d ≤ 0 then RoundDurationSeconds else d), none) := by
    simp only [startRoundCmd, hJ]
    rw [if_neg hw]
    rw [if_neg ?hc]
    case hc =>
      simp only [Bool.true_eq_false, false_or, if_true, not_lt]
      omega
  refine ⟨?_, ?_, ?_⟩
  · rw [heval]
  · rw [heval]
    rfl
  · intro r0
    simp [startRoundCmd]

theorem C4_witness :
    (startRoundCmd c4Room "word" 60 0).2 = none
    ∧ ((startRoundCmd c4Room "word" 60 0).1).state = "countdown"
    ∧ startRoundCmd c4Room "" 60 0
        = ({ c4Room with secretWord := "" }, some "กรรมการต้องกำหนดคำปริศนาก่อนเริ่มเกม") := by
  have h := C4_start_round c4Room "word" 60 0 rfl (by decide) (by decide) (by decide)
    (by decide) (by decide)
  exact ⟨h.1, h.2.1, h.2.2 c4Room⟩

theorem lookupS_map_const_true (l : List String) (x : String) :
    lookupS (l.map (fun t => (t, true))) x = some true ↔ x ∈ l := by
  induction l with
  | nil => simp [lookupS]
  | cons a t ih =>
    by_cases h : a = x
    · simp [lookupS, h]
    · simp [lookupS, h, ih, Ne.symm h]

theorem length_one_eq_headD (l : List String) (h : l.length = 1) : l = [l.headD ""] := by
  cases l with
  | nil => simp at h
  | cons a t =>
    cases t with
    | nil => rfl
    | cons b t2 => simp at h

/-- C1: when exactly one target holds the maximum vote count, the tally makes
it the accused; if the accused is the insider every player except the insider
and the judge gains exactly one point (insider and judge unchanged), otherwise
the insider — when present — gains exactly two points and all other scores are
unchanged; in both cases the room enters `scoreboard` with the live votes, the
voted markers and the blocked-voters set emptied. -/
theorem C1_tally_unique_accused (r : Room) (hp : r.players ≠ [])
    (htop : (topTargets r.votes).length = 1) :
    topTargets r.votes = [accusedOf r.votes]
    ∧ (handleTallyVotes r).state = "scoreboard"
    ∧ (handleTallyVotes r).votes = []
    ∧ (handleTallyVotes r).voted = []
    ∧ (handleTallyVotes r).blockedVoters = []
    ∧ (accusedOf r.votes = r.insiderID →
        ∀ k v, lookupS r.players k = some v →
          lookupS (handleTallyVotes r).players k
            = some { v with score := v.score
                + (if v.id = r.insiderID ∨ v.id = r.judgeID then 0 else 1) })
    ∧ (accusedOf r.votes ≠ r.insiderID →
        (∀ ins, lookupS r.players r.insiderID = some ins →
          lookupS (handleTallyVotes r).players r.insiderID
              = some { ins with score := ins.score + 2 }
          ∧ (∀ k, k ≠ r.insiderID →
              lookupS (handleTallyVotes r).players k = lookupS r.players k))
        ∧ (lookupS r.players r.insiderID = none →
            (handleTallyVotes r).players = r.players)) := by
  have hlen : ¬ r.players.length = 0 := by
    simpa [List.length_eq_zero] using hp
  have hcnt : ¬ (voteCounts r.votes).length = 0 := by
    intro h
    have he : voteCounts r.votes = [] := List.length_eq_zero.mp h
    rw [topTargets, he] at htop
    simp at htop
  have hnotie : ¬ 1 < (topTargets r.votes).length := by omega
  have heval : handleTallyVotes r =
      { r with
        lastVotes := r.votes.map (fun kv => ⟨kv.1, kv.2⟩)
        players := if accusedOf r.votes = r.insiderID
          then scoreCorrect r.players r.insiderID r.judgeID
          else scoreWrong r.players r.insiderID
        state := "scoreboard"
        votes := []
        voted := []
        blockedVoters := [] } := by
    unfold handleTallyVotes tallyCore
    rw [if_neg hlen]
    dsimp only
    rw [if_neg hcnt, if_neg hnotie]
  refine ⟨length_one_eq_headD _ htop, ?_, ?_, ?_, ?_, ?_, ?_⟩
  · rw [heval]
  · rw [heval]
  · rw [heval]
  · rw [heval]
  · intro hacc k v hkv
    rw [heval]
    show lookupS (if accusedOf r.votes = r.insiderID
      then scoreCorrect r.players r.insiderID r.judgeID
      else scoreWrong r.players r.insiderID) k = _
    rw [if_pos hacc]
    rw [scoreCorrect, lookupS_map_value
      (fun v2 => if v2.id = r.insiderID ∨ v2.id = r.judgeID then v2
        else { v2 with score := v2.score + 1 }) r.players k, hkv]
    by_cases hvp : v.id = r.insiderID ∨ v.id = r.judgeID
    · simp [hvp]
    · simp [hvp]
  · intro hacc
    constructor
    · intro ins hins
      constructor
      · rw [heval]
        show lookupS (if accusedOf r.votes = r.insiderID
          then scoreCorrect r.players r.insiderID r.judgeID
          else scoreWrong r.players r.insiderID) r.insiderID = _
        rw [if_neg hacc, scoreWrong, hins]
        exact lookupS_insertS_self r.players r.insiderID _
      · intro k hk
        rw [heval]
        show lookupS (if accusedOf r.votes = r.insiderID
          then scoreCorrect r.players r.insiderID r.judgeID
          else scoreWrong r.players r.insiderID) k = _
        rw [if_neg hacc, scoreWrong, hins]
        exact lookupS_insertS_ne r.players r.insiderID k _ hk
    · intro hnone
      rw [heval]
      show (if accusedOf r.votes = r.insiderID
        then scoreCorrect r.players r.insiderID r.judgeID
        else scoreWrong r.players r.insiderID) = r.players
      rw [if_neg hacc, scoreWrong, hnone]

/-- A voting room where players A and C both vote for B, the insider. -/
def c1Room : Room :=
  { newRoom "r1c" with
    state := "voting"
    judgeID := "J"
    insiderID := "B"
    players := [("J", ⟨"J", "j", 0, "judge"⟩), ("A", ⟨"A", "a", 0, "normal"⟩),
      ("B", ⟨"B", "b", 0, "insider"⟩), ("C", ⟨"C", "c", 0, "normal"⟩)]
    votes := [("A", "B"), ("C", "B")] }

theorem C1_witness :
    c1Room.players ≠ []
    ∧ (topTargets c1Room.votes).length = 1
    ∧ (handleTallyVotes c1Room).state = "scoreboard"
    ∧ lookupS (handleTallyVotes c1Room).players "A" = some ⟨"A", "a", 1, "normal"⟩
    ∧ lookupS (handleTallyVotes c1Room).players "B" = some ⟨"B", "b", 0, "insider"⟩ := by
  have h := C1_tally_unique_accused c1Room (by decide) (by decide)
  refine ⟨by decide, by decide, h.2.1, ?_, ?_⟩
  · have h5 := h.2.2.2.2.2.1 (by decide) "A" ⟨"A", "a", 0, "normal"⟩ (by decide)
    simpa using h5
  · have h5 := h.2.2.2.2.2.1 (by decide) "B" ⟨"B", "b", 0, "insider"⟩ (by decide)
    simpa using h5

/-- C2: when two or more targets tie for the maximum, the tally re-enters
`voting`, clears the live votes and the voted markers, makes the
blocked-voters set exactly the tied targets, changes no player data, starts
no timer, and any subsequently blocked voter's vote_insider is rejected with
an error. -/
theorem C2_tally_tie (r : Room) (hp : r.players ≠ [])
    (htie : 1 < (topTargets r.votes).length) :
    (handleTallyVotes r).state = "voting"
    ∧ (handleTallyVotes r).votes = []
    ∧ (handleTallyVotes r).voted = []
    ∧ (∀ x, lookupS (handleTallyVotes r).blockedVoters x = some true
        ↔ x ∈ topTargets r.votes)
    ∧ (handleTallyVotes r).players = r.players
    ∧ (handleTallyVotes r).timer = r.timer
    ∧ (handleTallyVotes r).timerRunning = r.timerRunning
    ∧ (∀ sender suspect,
        lookupS (handleTallyVotes r).blockedVoters sender = some true →
        ∃ msg, handleVoteInsider (handleTallyVotes r) sender suspect
          = Except.error msg) := by
  have hlen : ¬ r.players.length = 0 := by
    simpa [List.length_eq_zero] using hp
  have hcnt : ¬ (voteCounts r.votes).length = 0 := by
    intro h
    have he : voteCounts r.votes = [] := List.length_eq_zero.mp h
    rw [topTargets, he] at htie
    simp at htie
  have heval : handleTallyVotes r =
      { r with
        lastVotes := r.votes.map (fun kv => ⟨kv.1, kv.2⟩)
        state := "voting"
        votes := []
        voted := []
        blockedVoters := (topTargets r.votes).map (fun t => (t, true)) } := by
    unfold handleTallyVotes tallyCore
    rw [if_neg hlen]
    dsimp only
    rw [if_neg hcnt, if_pos htie]
  have hstate : (handleTallyVotes r).state = "voting" := by rw [heval]
  refine ⟨hstate, by rw [heval], by rw [heval], ?_, by rw [heval], by rw [heval],
    by rw [heval], ?_⟩
  · intro x
    rw [heval]
    exact lookupS_map_const_true (topTargets r.votes) x
  · intro sender suspect hblk
    by_cases h1 : suspect = ""
    · exact ⟨"suspectId is required", by simp [handleVoteInsider, h1]⟩
    · by_cases h2 : sender = (handleTallyVotes r).judgeID
      · exact ⟨"กรรมการไม่สามารถโหวตได้", by
          simp [handleVoteInsider, h1, hstate, h2]⟩
      · exact ⟨"คุณอยู่ในกลุ่มที่ถูกสงสัย จึงไม่มีสิทธิ์โหวตรอบนี้", by
          simp [handleVoteInsider, h1, hstate, h2, hblk]⟩

/-- A voting room where A votes X and B votes Y, giving a 1-1 tie. -/
def c2Room : Room :=
  { newRoom "r2c" with
    state := "voting"
    judgeID := "J"
    insiderID := "X"
    players := [("J", ⟨"J", "j", 0, "judge"⟩), ("A", ⟨"A", "a", 0, "normal"⟩),
      ("B", ⟨"B", "b", 0, "normal"⟩), ("X", ⟨"X", "x", 0, "insider"⟩),
      ("Y", ⟨"Y", "y", 0, "normal"⟩)]
    votes := [("A", "X"), ("B", "Y")] }

theorem C2_witness :
    c2Room.players ≠ []
    ∧ 1 < (topTargets c2Room.votes).length
    ∧ (handleTallyVotes c2Room).state = "voting"
    ∧ (lookupS (handleTallyVotes c2Room).blockedVoters "X" = some true
        ↔ "X" ∈ topTargets c2Room.votes)
    ∧ (∃ msg, handleVoteInsider (handleTallyVotes c2Room) "X" "A"
        = Except.error msg) := by
  have h := C2_tally_tie c2Room (by decide) (by decide)
  refine ⟨by decide, by decide, h.1, h.2.2.2.1 "X", ?_⟩
  refine h.2.2.2.2.2.2.2 "X" "A" ?_
  rw [(h.2.2.2.1 "X")]
  decide

theorem handleVoteInsider_eval (r : Room) (senderID suspectID : String)
    (hsus : ¬ suspectID = "") (hstate : r.state = "voting")
    (hjudge : ¬ senderID = r.judgeID)
    (hblock : ¬ lookupS r.blockedVoters senderID = some true)
    (hself : ¬ suspectID = senderID)
    (hmem : ¬ (lookupS r.players suspectID).isNone) :
    handleVoteInsider r senderID suspectID =
      if (voteRecorded r senderID suspectID).votes.length
            ≥ eligibleCount (voteRecorded r senderID suspectID)
          ∧ 0 < eligibleCount (voteRecorded r senderID suspectID) then
        Except.ok (handleTallyVotes
          (if (voteRecorded r senderID suspectID).timerRunning
            then cancelTimer (voteRecorded r senderID suspectID)
            else voteRecorded r senderID suspectID))
      else Except.ok (voteRecorded r senderID suspectID) := by
  simp only [handleVoteInsider]
  rw [if_neg hsus]
  rw [if_neg (show ¬ r.state ≠ "voting" by simp [hstate])]
  rw [if_neg hjudge, if_neg hblock, if_neg hself, if_neg hmem]

/-- C6: once a valid vote is recorded, if the number of voters in the live
vote mapping reaches the freshly recomputed positive eligible-voter count,
the running vote timer is cancelled and the tally runs synchronously; below
that threshold no tally runs and the room simply holds the recorded vote,
still in `voting`. -/
theorem C6_vote_completion (r : Room) (senderID suspectID : String)
    (hsus : ¬ suspectID = "") (hstate : r.state = "voting")
    (hjudge : ¬ senderID = r.judgeID)
    (hblock : ¬ lookupS r.blockedVoters senderID = some true)
    (hself : ¬ suspectID = senderID)
    (hmem : ¬ (lookupS r.players suspectID).isNone)
    (hnd : NodupKeys r.votes) :
    NodupKeys (voteRecorded r senderID suspectID).votes
    ∧ ((voteRecorded r senderID suspectID).votes.length
          ≥ eligibleCount (voteRecorded r senderID suspectID) →
        0 < eligibleCount (voteRecorded r senderID suspectID) →
        r.timerRunning = true →
        handleVoteInsider r senderID suspectID
          = Except.ok (handleTallyVotes (cancelTimer (voteRecorded r senderID suspectID))))
    ∧ ((voteRecorded r senderID suspectID).votes.length
          < eligibleCount (voteRecorded r senderID suspectID) →
        handleVoteInsider r senderID suspectID
          = Except.ok (voteRecorded r senderID suspectID)
        ∧ (voteRecorded r senderID suspectID).state = "voting"
        ∧ (voteRecorded r senderID suspectID).timerRunning = r.timerRunning) := by
  have heval := handleVoteInsider_eval r senderID suspectID hsus hstate hjudge hblock
    hself hmem
  refine ⟨NodupKeys_insertS r.votes senderID suspectID hnd, ?_, ?_⟩
  · intro hge hpos hrun
    rw [heval, if_pos ⟨hge, hpos⟩,
      if_pos (show (voteRecorded r senderID suspectID).timerRunning = true from hrun)]
  · intro hlt
    rw [heval, if_neg (by omega)]
    exact ⟨rfl, hstate, rfl⟩

/-- A voting room with judge J and three eligible voters A, B, C, where A and
B have already voted for C and the vote timer is running. -/
def c6Room : Room :=
  { newRoom "r6c" with
    state := "voting"
    judgeID := "J"
    insiderID := "C"
    timer := 42
    timerRunning := true
    timerCancelSet := true
    players := [("J", ⟨"J", "j", 0, "judge"⟩), ("A", ⟨"A", "a", 0, "normal"⟩),
      ("B", ⟨"B", "b", 0, "normal"⟩), ("C", ⟨"C", "c", 0, "insider"⟩)]
    votes := [("A", "C"), ("B", "C")]
    voted := [("A", true), ("B", true)] }

theorem C6_witness :
    handleVoteInsider c6Room "C" "A"
      = Except.ok (handleTallyVotes (cancelTimer (voteRecorded c6Room "C" "A")))
    ∧ handleVoteInsider { c6Room with votes := [], voted := [] } "A" "C"
      = Except.ok (voteRecorded { c6Room with votes := [], voted := [] } "A" "C") := by
  constructor
  · exact (C6_vote_completion c6Room "C" "A" (by decide) rfl (by decide) (by decide)
      (by decide) (by decide) (by decide)).2.1 (by decide) (by decide) rfl
  · exact ((C6_vote_completion { c6Room with votes := [], voted := [] } "A" "C"
      (by decide) rfl (by decide) (by decide) (by decide) (by decide) (by decide)).2.2
      (by decide)).1

/-- C10: a second valid vote_insider from a voter who already has a live vote
is accepted and overwrites the previous entry in place: the mapping still has
one target per voter, other voters' entries are untouched, and the vote-map
size used by the completion check does not grow. -/
theorem C10_revote (r : Room) (senderID suspectID prevTarget : String)
    (hsus : ¬ suspectID = "") (hstate : r.state = "voting")
    (hjudge : ¬ senderID = r.judgeID)
    (hblock : ¬ lookupS r.blockedVoters senderID = some true)
    (hself : ¬ suspectID = senderID)
    (hmem : ¬ (lookupS r.players suspectID).isNone)
    (hprev : lookupS r.votes senderID = some prevTarget)
    (hnd : NodupKeys r.votes) :
    lookupS (voteRecorded r senderID suspectID).votes senderID = some suspectID
    ∧ (∀ k, k ≠ senderID →
        lookupS (voteRecorded r senderID suspectID).votes k = lookupS r.votes k)
    ∧ (voteRecorded r senderID suspectID).votes.length = r.votes.length
    ∧ NodupKeys (voteRecorded r senderID suspectID).votes
    ∧ (∃ r2, handleVoteInsider r senderID suspectID = Except.ok r2) := by
  have heval := handleVoteInsider_eval r senderID suspectID hsus hstate hjudge hblock
    hself hmem
  refine ⟨lookupS_insertS_self r.votes senderID suspectID, ?_, ?_, ?_, ?_⟩
  · intro k hk
    exact lookupS_insertS_ne r.votes senderID k suspectID hk
  · exact length_insertS_of_mem r.votes senderID suspectID (by rw [hprev]; rfl)
  · exact NodupKeys_insertS r.votes senderID suspectID hnd
  · by_cases hth : (voteRecorded r senderID suspectID).votes.length
        ≥ eligibleCount (voteRecorded r senderID suspectID)
      ∧ 0 < eligibleCount (voteRecorded r senderID suspectID)
    · exact ⟨_, by rw [heval, if_pos hth]⟩
    · exact ⟨_, by rw [heval, if_neg hth]⟩

theorem C10_witness :
    lookupS (voteRecorded c6Room "A" "B").votes "A" = some "B"
    ∧ lookupS (voteRecorded c6Room "A" "B").votes "B" = lookupS c6Room.votes "B"
    ∧ (voteRecorded c6Room "A" "B").votes.length = c6Room.votes.length
    ∧ (∃ r2, handleVoteInsider c6Room "A" "B" = Except.ok r2) := by
  have h := C10_revote c6Room "A" "B" "C" (by decide) rfl (by decide) (by decide)
    (by decide) (by decide) rfl (by decide)
  exact ⟨h.1, h.2.1 "B" (by decide), h.2.2.1, h.2.2.2.2⟩

/-- Number of room entries whose player currently holds role `insider`. -/
def countIns (ps : List (String × Player)) : Nat :=
  (ps.filter (fun kv => kv.2.role == "insider")).length

theorem countIns_zero_of_all (ps : List (String × Player))
    (h : ∀ kv ∈ ps, ¬ kv.2.role = "insider") : countIns ps = 0 := by
  induction ps with
  | nil => rfl
  | cons kv rest ih =>
    have hk := h kv (List.mem_cons_self kv rest)
    rw [countIns, List.filter_cons, if_neg (by simp [hk])]
    exact ih (fun a ha => h a (List.mem_cons_of_mem kv ha))

theorem countIns_insertS_le (ps : List (String × Player)) (k : String) (v : Player)
    (hv : ¬ v.role = "insider") : countIns (insertS ps k v) ≤ countIns ps := by
  induction ps with
  | nil => simp [insertS, countIns, List.filter_cons, hv]
  | cons kv rest ih =>
    by_cases hk : kv.1 = k
    · simp only [insertS, if_pos hk, countIns, List.filter_cons]
      rw [if_neg (by simp [hv])]
      split <;> simp
    · simp only [insertS, if_neg hk, countIns, List.filter_cons]
      split
      · simpa [countIns] using ih
      · simpa [countIns] using ih

theorem countIns_insertS_same (ps : List (String × Player)) (k : String)
    (v w : Player) (hw : lookupS ps k = some w) (hrole : v.role = w.role) :
    countIns (insertS ps k v) = countIns ps := by
  induction ps with
  | nil => simp [lookupS] at hw
  | cons kv rest ih =>
    by_cases hk : kv.1 = k
    · rw [lookupS, if_pos hk] at hw
      have hww : kv.2 = w := by injection hw
      simp only [insertS, if_pos hk, countIns, List.filter_cons, beq_iff_eq, hrole,
        hww]
      split <;> simp
    · rw [lookupS, if_neg hk] at hw
      simp only [insertS, if_neg hk, countIns, List.filter_cons]
      split
      · simpa [countIns] using ih hw
      · simpa [countIns] using ih hw

theorem countIns_map_role_eq (g : Player → Player) (hg : ∀ x, (g x).role = x.role)
    (ps : List (String × Player)) :
    countIns (ps.map (fun kv => (kv.1, g kv.2))) = countIns ps := by
  induction ps with
  | nil => rfl
  | cons kv rest ih =>
    simp only [List.map_cons, countIns, List.filter_cons, hg]
    split
    · simpa [countIns] using ih
    · simpa [countIns] using ih

theorem countIns_eraseS_le (ps : List (String × Player)) (k : String) :
    countIns (eraseS ps k) ≤ countIns ps := by
  have hs : (eraseS ps k).Sublist ps := List.filter_sublist ps
  exact List.Sublist.length_le (List.Sublist.filter _ hs)

theorem keys_setRoleByKey (ps : List (String × Player)) (k ro : String) :
    (setRoleByKey ps k ro).map Prod.fst = ps.map Prod.fst := by
  induction ps with
  | nil => rfl
  | cons kv rest ih =>
    simp only [setRoleByKey, List.map_cons] at ih ⊢
    by_cases hk : kv.1 = k
    · simp [hk, ih]
    · simp [hk, ih]

theorem clearRoles_all_normal (ps : List (String × Player)) :
    ∀ kv ∈ clearRoles ps, kv.2.role = "normal" := by
  intro kv hkv
  rw [clearRoles, List.mem_map] at hkv
  obtain ⟨a, _, rfl⟩ := hkv
  rfl

theorem setRoleByKey_no_insider (ps : List (String × Player)) (k ro : String)
    (hro : ¬ ro = "insider") (h : ∀ kv ∈ ps, ¬ kv.2.role = "insider") :
    ∀ kv ∈ setRoleByKey ps k ro, ¬ kv.2.role = "insider" := by
  intro kv hkv
  rw [setRoleByKey, List.mem_map] at hkv
  obtain ⟨a, ha, rfl⟩ := hkv
  by_cases hk : a.1 = k
  · simp [hk, hro]
  · simp only [if_neg hk]
    exact h a ha

theorem setRoleByKey_not_mem (ps : List (String × Player)) (k ro : String)
    (h : k ∉ ps.map Prod.fst) : setRoleByKey ps k ro = ps := by
  induction ps with
  | nil => rfl
  | cons kv rest ih =>
    simp only [List.map_cons, List.mem_cons] at h
    push_neg at h
    have hne : ¬ kv.1 = k := fun hh => h.1 hh.symm
    simp only [setRoleByKey, List.map_cons, if_neg hne]
    rw [setRoleByKey] at ih
    rw [ih h.2]


theorem countIns_setRole_insider (ps : List (String × Player)) (k : String)
    (hnd : NodupKeys ps) (hall : ∀ kv ∈ ps, ¬ kv.2.role = "insider") :
    countIns (setRoleByKey ps k "insider") ≤ 1 := by
  induction ps with
  | nil => simp [setRoleByKey, countIns]
  | cons kv rest ih =>
    rw [NodupKeys, List.map_cons, List.nodup_cons] at hnd
    have hallr : ∀ kv2 ∈ rest, ¬ kv2.2.role = "insider" :=
      fun a ha => hall a (List.mem_cons_of_mem kv ha)
    by_cases hk : kv.1 = k
    · subst hk
      have hrest : setRoleByKey rest kv.1 "insider" = rest :=
        setRoleByKey_not_mem rest kv.1 "insider" hnd.1
      have hzero : countIns rest = 0 := countIns_zero_of_all rest hallr
      rw [setRoleByKey, List.map_cons, if_pos rfl]
      rw [show (rest.map (fun kv2 =>
        if kv2.1 = kv.1 then (kv2.1, { kv2.2 with role := "insider" }) else kv2))
          = setRoleByKey rest kv.1 "insider" from rfl, hrest]
      rw [countIns, List.filter_cons, if_pos (by simp)]
      rw [List.length_cons]
      have : (List.filter (fun kv2 => kv2.2.role == "insider") rest).length = 0 := hzero
      omega
    · have hhead : ¬ kv.2.role = "insider" := hall kv (List.mem_cons_self kv rest)
      rw [setRoleByKey, List.map_cons, if_neg hk]
      rw [show (rest.map (fun kv2 =>
        if kv2.1 = k then (kv2.1, { kv2.2 with role := "insider" }) else kv2))
          = setRoleByKey rest k "insider" from rfl]
      rw [countIns, List.filter_cons, if_neg (by simp [hhead])]
      exact ih hnd.2 hallr

theorem countdownTick_players (r : Room) : (countdownTick r).players = r.players := by
  unfold countdownTick
  dsimp only
  split
  · rfl
  · split <;> (split <;> rfl)

theorem handleGuessCorrect_players (r : Room) :
    (handleGuessCorrect r).players = r.players := by
  unfold handleGuessCorrect startVoteTimer cancelTimer
  dsimp only
  split <;> rfl

theorem tally_players (r : Room) :
    (handleTallyVotes r).players = r.players
    ∨ (handleTallyVotes r).players = scoreCorrect r.players r.insiderID r.judgeID
    ∨ (handleTallyVotes r).players = scoreWrong r.players r.insiderID := by
  unfold handleTallyVotes tallyCore
  dsimp only
  split
  · left; rfl
  · split
    · left; rfl
    · split
      · left; rfl
      · split
        · right; left; rfl
        · right; right; rfl

theorem scoreCorrect_inv (ps : List (String × Player)) (i j : String)
    (hnd : NodupKeys ps) :
    NodupKeys (scoreCorrect ps i j) ∧ countIns (scoreCorrect ps i j) = countIns ps := by
  constructor
  · rw [NodupKeys, scoreCorrect, keys_map_value
      (fun v => if v.id = i ∨ v.id = j then v else { v with score := v.score + 1 }) ps]
    exact hnd
  · rw [scoreCorrect]
    refine countIns_map_role_eq
      (fun v => if v.id = i ∨ v.id = j then v else { v with score := v.score + 1 })
      ?_ ps
    intro x
    dsimp only
    split <;> rfl

theorem scoreWrong_inv (ps : List (String × Player)) (i : String)
    (hnd : NodupKeys ps) :
    NodupKeys (scoreWrong ps i) ∧ countIns (scoreWrong ps i) = countIns ps := by
  rw [scoreWrong]
  cases hw : lookupS ps i with
  | none => exact ⟨hnd, rfl⟩
  | some ins =>
    refine ⟨NodupKeys_insertS ps i _ hnd, ?_⟩
    exact countIns_insertS_same ps i _ ins hw rfl

theorem tally_inv (r : Room) (hnd : NodupKeys r.players) :
    NodupKeys (handleTallyVotes r).players
    ∧ countIns (handleTallyVotes r).players = countIns r.players := by
  rcases tally_players r with h | h | h <;> rw [h]
  · exact ⟨hnd, rfl⟩
  · exact scoreCorrect_inv r.players r.insiderID r.judgeID hnd
  · exact scoreWrong_inv r.players r.insiderID hnd

theorem NodupKeys_map_value {β γ : Type} (g : β → γ) (ps : List (String × β))
    (h : NodupKeys ps) : NodupKeys (ps.map (fun kv => (kv.1, g kv.2))) := by
  rw [NodupKeys, keys_map_value g ps]
  exact h

theorem assignRoles_players_shape (r : Room) (pick : Nat) :
    ∃ ps2 : List (String × Player),
      ((assignRoles r pick).players = ps2
        ∨ ∃ k, (assignRoles r pick).players = setRoleByKey ps2 k "insider")
      ∧ (ps2 = clearRoles r.players
        ∨ ps2 = setRoleByKey (clearRoles r.players) r.judgeID "judge") := by
  unfold assignRoles
  dsimp only
  set ps2 := (if r.judgeID ≠ "" ∧ (lookupS (clearRoles r.players) r.judgeID).isSome = true
    then setRoleByKey (clearRoles r.players) r.judgeID "judge"
    else clearRoles r.players) with hps2
  refine ⟨ps2, ?_, ?_⟩
  · by_cases hc : (ps2.filter (fun kv => kv.2.id != r.judgeID)).length = 0
    · rw [dif_pos hc]
      exact Or.inl rfl
    · rw [dif_neg hc]
      exact Or.inr ⟨_, rfl⟩
  · rw [hps2]
    split
    · exact Or.inr rfl
    · exact Or.inl rfl

theorem assignRoles_players_inv (r : Room) (pick : Nat) (hnd : NodupKeys r.players) :
    NodupKeys (assignRoles r pick).players
    ∧ countIns (assignRoles r pick).players ≤ 1 := by
  obtain ⟨ps2, hshape, hps2⟩ := assignRoles_players_shape r pick
  have hnd1 : NodupKeys (clearRoles r.players) :=
    NodupKeys_map_value (fun p : Player => ({ p with role := "normal" } : Player))
      r.players hnd
  have hall1 : ∀ kv ∈ clearRoles r.players, ¬ kv.2.role = "insider" := by
    intro kv hkv
    rw [clearRoles_all_normal r.players kv hkv]
    decide
  have hnd2 : NodupKeys ps2 := by
    rcases hps2 with rfl | rfl
    · exact hnd1
    · rw [NodupKeys, keys_setRoleByKey]
      exact hnd1
  have hall2 : ∀ kv ∈ ps2, ¬ kv.2.role = "insider" := by
    rcases hps2 with rfl | rfl
    · exact hall1
    · exact setRoleByKey_no_insider _ _ _ (by decide) hall1
  rcases hshape with heq | ⟨k, heq⟩ <;> rw [heq]
  · refine ⟨hnd2, ?_⟩
    rw [countIns_zero_of_all ps2 hall2]
    omega
  · refine ⟨?_, countIns_setRole_insider ps2 k hnd2 hall2⟩
    rw [NodupKeys, keys_setRoleByKey]
    exact hnd2

theorem assignRoles_insider_ne_judge (r : Room) (pick : Nat)
    (h : (assignRoles r pick).insiderID ≠ "") :
    (assignRoles r pick).insiderID ≠ (assignRoles r pick).judgeID := by
  unfold assignRoles at h ⊢
  dsimp only at h ⊢
  set ps2 := (if r.judgeID ≠ "" ∧ (lookupS (clearRoles r.players) r.judgeID).isSome = true
    then setRoleByKey (clearRoles r.players) r.judgeID "judge"
    else clearRoles r.players) with hps2
  by_cases hc : (ps2.filter (fun kv => kv.2.id != r.judgeID)).length = 0
  · rw [dif_pos hc] at h
    exact absurd rfl h
  · rw [dif_neg hc] at h ⊢
    intro hEq
    have hmem := List.get_mem (ps2.filter (fun kv => kv.2.id != r.judgeID)) _
      (Nat.mod_lt pick (Nat.pos_of_ne_zero hc))
    have hne := (List.mem_filter.mp hmem).2
    rw [bne_iff_ne] at hne
    exact hne hEq

theorem startRound_players (r : Room) (w : String) (d : Int) (pick : Nat) :
    ((startRoundCmd r w d pick).1).players = r.players
    ∨ ((startRoundCmd r w d pick).1).players
        = (assignRoles { r with secretWord := w } pick).players := by
  unfold startRoundCmd
  dsimp only
  split
  · left; rfl
  · split <;> split
    all_goals first
      | (left; rfl)
      | (right; rfl)

theorem guessCorrect_ok_players (r : Room) (s : String) (r2 : Room)
    (h : guessCorrectCmd r s = Except.ok r2) : r2.players = r.players := by
  unfold guessCorrectCmd at h
  split at h
  · injection h with h2
    subst h2
    exact handleGuessCorrect_players r
  · simp at h

theorem voteInsider_ok_inv (r : Room) (s t : String) (r2 : Room)
    (hnd : NodupKeys r.players)
    (h : handleVoteInsider r s t = Except.ok r2) :
    NodupKeys r2.players ∧ countIns r2.players = countIns r.players := by
  unfold handleVoteInsider at h
  dsimp only at h
  split at h
  · simp at h
  · split at h
    · simp at h
    · split at h
      · simp at h
      · split at h
        · simp at h
        · split at h
          · simp at h
          · split at h
            · simp at h
            · split at h
              · split at h
                · injection h with h2
                  subst h2
                  exact tally_inv (cancelTimer (voteRecorded r s t)) hnd
                · injection h with h2
                  subst h2
                  exact tally_inv (voteRecorded r s t) hnd
              · injection h with h2
                subst h2
                exact ⟨hnd, rfl⟩

/-- The operations of the room state machine, as exercised by the websocket
handler: join, set_judge, role assignment, start_round, guess_correct,
vote_insider, the vote tally, next_round, kick, player departure, and a
countdown tick. -/
inductive RoomOp where
  | join (pid name : String)
  | setJudge (target : String)
  | assignRolesOp (pick : Nat)
  | startRoundOp (word : String) (dur : Int) (pick : Nat)
  | guessCorrectOp (sender : String)
  | voteOp (sender suspect : String)
  | tallyOp
  | nextRoundOp
  | kickOp (sender target : String)
  | departOp (pid : String)
  | tickOp

/-- One operation applied to a room, following the corresponding branch of
`wsHandler` (commands that only send an error leave the room unchanged). -/
def applyOp (r : Room) : RoomOp → Room
  | RoomOp.join pid name =>
    let r1 : Room := { r with players := insertS r.players pid ⟨pid, name, 0, ""⟩ }
    if r1.hostID = "" then { r1 with hostID := pid } else r1
  | RoomOp.setJudge target =>
    if (lookupS r.players target).isSome then { r with judgeID := target } else r
  | RoomOp.assignRolesOp pick => assignRoles r pick
  | RoomOp.startRoundOp w d pick => (startRoundCmd r w d pick).1
  | RoomOp.guessCorrectOp s =>
    match guessCorrectCmd r s with
    | Except.ok r2 => r2
    | Except.error _ => r
  | RoomOp.voteOp s t =>
    match handleVoteInsider r s t with
    | Except.ok r2 => r2
    | Except.error _ => r
  | RoomOp.tallyOp => handleTallyVotes r
  | RoomOp.nextRoundOp => handleNextRound r
  | RoomOp.kickOp s t =>
    if r.hostID ≠ s then r
    else if t = "" then r
    else if t = r.hostID then r
    else if (lookupS r.players t).isNone then r
    else
      let r1 : Room := if r.judgeID = t then { r with judgeID := "" } else r
      { r1 with players := eraseS r1.players t }
  | RoomOp.departOp pid =>
    let r1 : Room := { r with players := eraseS r.players pid }
    let r2 : Room :=
      if r1.hostID = pid then
        { r1 with hostID := (r1.players.headD ("", ⟨"", "", 0, ""⟩)).1 }
      else r1
    if r2.judgeID = pid then { r2 with judgeID := "" } else r2
  | RoomOp.tickOp => countdownTick r

/-- The player map has distinct keys and at most one entry holds role
`insider`. -/
def InsInv (r : Room) : Prop := NodupKeys r.players ∧ countIns r.players ≤ 1

theorem applyOp_inv (r : Room) (op : RoomOp) (h : InsInv r) : InsInv (applyOp r op) := by
  obtain ⟨hnd, hct⟩ := h
  cases op with
  | join pid name =>
    have hk := NodupKeys_insertS r.players pid ⟨pid, name, 0, ""⟩ hnd
    have hc : countIns (insertS r.players pid ⟨pid, name, 0, ""⟩) ≤ 1 :=
      le_trans (countIns_insertS_le r.players pid _ (fun hcon => by simp at hcon)) hct
    dsimp only [applyOp]
    split
    · exact ⟨hk, hc⟩
    · exact ⟨hk, hc⟩
  | setJudge target =>
    dsimp only [applyOp]
    split
    · exact ⟨hnd, hct⟩
    · exact ⟨hnd, hct⟩
  | assignRolesOp pick =>
    exact assignRoles_players_inv r pick hnd
  | startRoundOp w d pick =>
    rcases startRound_players r w d pick with hh | hh
    · refine ⟨?_, ?_⟩
      · show NodupKeys ((startRoundCmd r w d pick).1).players
        rw [hh]; exact hnd
      · show countIns ((startRoundCmd r w d pick).1).players ≤ 1
        rw [hh]; exact hct
    · have ha := assignRoles_players_inv { r with secretWord := w } pick hnd
      refine ⟨?_, ?_⟩
      · show NodupKeys ((startRoundCmd r w d pick).1).players
        rw [hh]; exact ha.1
      · show countIns ((startRoundCmd r w d pick).1).players ≤ 1
        rw [hh]; exact ha.2
  | guessCorrectOp s =>
    dsimp only [applyOp]
    cases hg : guessCorrectCmd r s with
    | ok r2 =>
      have hp := guessCorrect_ok_players r s r2 hg
      refine ⟨?_, ?_⟩
      · show NodupKeys r2.players
        rw [hp]; exact hnd
      · show countIns r2.players ≤ 1
        rw [hp]; exact hct
    | error e => exact ⟨hnd, hct⟩
  | voteOp s t =>
    dsimp only [applyOp]
    cases hg : handleVoteInsider r s t with
    | ok r2 =>
      have hv := voteInsider_ok_inv r s t r2 hnd hg
      refine ⟨hv.1, ?_⟩
      show countIns r2.players ≤ 1
      rw [hv.2]; exact hct
    | error e => exact ⟨hnd, hct⟩
  | tallyOp =>
    have ht := tally_inv r hnd
    refine ⟨ht.1, ?_⟩
    show countIns (handleTallyVotes r).players ≤ 1
    rw [ht.2]; exact hct
  | nextRoundOp =>
    refine ⟨?_, ?_⟩
    · exact NodupKeys_map_value (fun p : Player => ({ p with role := "" } : Player))
        r.players hnd
    · have hz : countIns (handleNextRound r).players = 0 := by
        refine countIns_zero_of_all _ ?_
        intro kv hkv
        rw [handleNextRound] at hkv
        dsimp only at hkv
        rw [List.mem_map] at hkv
        obtain ⟨a, _, rfl⟩ := hkv
        exact (by decide : ¬ ("" : String) = "insider")
      show countIns (handleNextRound r).players ≤ 1
      rw [hz]
      omega
  | kickOp s t =>
    dsimp only [applyOp]
    split
    · exact ⟨hnd, hct⟩
    · split
      · exact ⟨hnd, hct⟩
      · split
        · exact ⟨hnd, hct⟩
        · split
          · exact ⟨hnd, hct⟩
          · split
            · exact ⟨NodupKeys_eraseS r.players t hnd,
                le_trans (countIns_eraseS_le r.players t) hct⟩
            · exact ⟨NodupKeys_eraseS r.players t hnd,
                le_trans (countIns_eraseS_le r.players t) hct⟩
  | departOp pid =>
    dsimp only [applyOp]
    split <;> split <;>
      exact ⟨NodupKeys_eraseS r.players pid hnd,
        le_trans (countIns_eraseS_le r.players pid) hct⟩
  | tickOp =>
    have hp := countdownTick_players r
    dsimp only [applyOp]
    refine ⟨?_, ?_⟩ <;> rw [hp]
    · exact hnd
    · exact hct

/-- A room evolved from a freshly created room by a sequence of operations. -/
def runOps (ops : List RoomOp) : Room := ops.foldl applyOp (newRoom "room")

theorem runOps_inv (ops : List RoomOp) : InsInv (runOps ops) := by
  have base : InsInv (newRoom "room") := ⟨by decide, by decide⟩
  rw [runOps]
  have hgen : ∀ (l : List RoomOp) (r0 : Room), InsInv r0 → InsInv (l.foldl applyOp r0) := by
    intro l
    induction l with
    | nil =>
      intro r0 h0
      simpa using h0
    | cons op rest ih =>
      intro r0 h0
      rw [List.foldl_cons]
      exact ih _ (applyOp_inv r0 op h0)
  exact hgen ops _ base

/-- Four players join, B is made judge, roles are assigned (picking A as
insider), and then set_judge is pointed at the insider A. -/
def c3Ops : List RoomOp :=
  [RoomOp.join "A" "a", RoomOp.join "B" "b", RoomOp.join "C" "c", RoomOp.join "D" "d",
   RoomOp.setJudge "B", RoomOp.assignRolesOp 0, RoomOp.setJudge "A"]

/-- C3 counterexample: set_judge only checks that the target is a member, so
pointing it at the current insider yields a reachable state with
insider id = judge id, refuting the claimed invariant. -/
theorem C3_cex :
    (runOps c3Ops).insiderID ≠ ""
    ∧ (runOps c3Ops).insiderID = (runOps c3Ops).judgeID := by
  constructor
  · decide
  · decide

/-- C3 (amended): in every room state reachable by any operation sequence, at
most one player holds role `insider`; and immediately after role assignment a
non-empty insider id differs from the judge id — but that inequality is not
preserved by a later set_judge aimed at the insider, so it is not an
invariant of all sequences. -/
theorem C3_insider_invariant :
    (∀ ops : List RoomOp, countIns (runOps ops).players ≤ 1)
    ∧ (∀ (r : Room) (pick : Nat), (assignRoles r pick).insiderID ≠ "" →
        (assignRoles r pick).insiderID ≠ (assignRoles r pick).judgeID) := by
  constructor
  · intro ops
    exact (runOps_inv ops).2
  · exact assignRoles_insider_ne_judge

theorem C3_witness :
    countIns (runOps c3Ops).players ≤ 1
    ∧ (assignRoles c1Room 0).insiderID ≠ (assignRoles c1Room 0).judgeID := by
  refine ⟨C3_insider_invariant.1 c3Ops, C3_insider_invariant.2 c1Room 0 ?_⟩
  decide
